import Mathlib

/-!
Verification of the Physeter storage engine (TypeScript sources) against its
natural-language specification.  The development shallowly embeds the byte
buffers, the chunk codec, the track file, the volume read/write streams and
the name index as executable Lean functions over `List Nat` byte strings,
then settles the frozen claims as theorems.

Modelling conventions, used throughout:
* a `Buffer` is a `List Nat` whose entries are byte values;
* JavaScript `writeUIntBE`-style writers store `v % 256^width`; the signed
  variants used by the source (`writeInt16BE`, `writeBigInt64BE`) coincide
  with this on the non-negative in-range values that occur in every state
  considered, and theorems carry the needed bounds as hypotheses;
* bytes of an `allocUnsafeSlow` buffer that are never written, and bytes of
  a positional read beyond the end of the file, are modelled as `0`;
* unbounded `for (;;)` loops are embedded with an explicit fuel parameter;
  call sites pass a fuel that is provably sufficient, and theorems about
  non-termination quantify over all fuels.
-/

namespace Physeter

/-- Big-endian byte encoding of `v % 256^w` on `w` bytes, the model of the
JavaScript `write…BE(v, off)` family restricted to its payload bytes. -/
def writeBE : Nat → Nat → List Nat
  | 0, _ => []
  | w + 1, v => writeBE w (v / 256) ++ [v % 256]

/-- Big-endian value of a byte string. -/
def beVal (l : List Nat) : Nat :=
  l.foldl (fun a b => a * 256 + b) 0

/-- Big-endian read of `w` bytes of `buf` starting at `off`, the model of the
JavaScript `read…BE(off)` family (unsigned view; see the header comment). -/
def readBE (buf : List Nat) (off w : Nat) : Nat :=
  beVal ((buf.drop off).take w)

/-- Overwrite the region of `dst` starting at `off` with `src`, truncating at
the end of `dst`: the model of `Buffer.prototype.copy` / in-bounds
`write…BE` into an already-allocated buffer. -/
def bufWriteAt (dst : List Nat) (off : Nat) (src : List Nat) : List Nat :=
  dst.take off ++ src.take (dst.length - off) ++ dst.drop (off + src.length)

/-- Positional file write (`File.write`): extends the file with zero padding
when the write starts past the current end, otherwise splices in place. -/
def fileWrite (file : List Nat) (off : Nat) (data : List Nat) : List Nat :=
  ((file ++ List.replicate (off - file.length) 0).take off) ++ data ++
    file.drop (off + data.length)

/-- Bytes actually delivered by a positional read of `len` bytes at `off`
(`fs.read` semantics: short at end of file, empty past it). -/
def fileRead (file : List Nat) (off len : Nat) : List Nat :=
  (file.drop off).take len

/-- Number of bytes delivered by the positional read, the source's `size`. -/
def fileReadSize (file : List Nat) (off len : Nat) : Nat :=
  (fileRead file off len).length

/-- The full `len`-byte destination buffer after the positional read, with
the bytes the read did not reach modelled as zero. -/
def fileReadBuf (file : List Nat) (off len : Nat) : List Nat :=
  fileRead file off len ++ List.replicate (len - fileReadSize file off len) 0

/-- Membership test of the model of a JavaScript `Set` / `Map` key set. -/
def setHas (s : List Nat) (x : Nat) : Bool :=
  s.any (fun y => y == x)

/-- Insertion into the model of a JavaScript `Set` (`Set.prototype.add`):
no duplicate is created when the element is already present. -/
def setAdd (s : List Nat) (x : Nat) : List Nat :=
  if setHas s x then s else s ++ [x]

/-- Lookup in the model of a JavaScript `Map` (`Map.prototype.get`). -/
def mapGet {κ α : Type} [BEq κ] (m : List (κ × α)) (k : κ) : Option α :=
  (m.find? (fun p => p.1 == k)).map (fun p => p.2)

/-- Key-membership in the model of a JavaScript `Map` (`Map.prototype.has`). -/
def mapHas {κ α : Type} [BEq κ] (m : List (κ × α)) (k : κ) : Bool :=
  m.any (fun p => p.1 == k)

/-- Insert-or-replace in the model of a JavaScript `Map` (`Map.prototype.set`). -/
def mapSet {κ α : Type} [BEq κ] (m : List (κ × α)) (k : κ) (v : α) :
    List (κ × α) :=
  if mapHas m k then m.map (fun p => if p.1 == k then (k, v) else p)
  else m ++ [(k, v)]

/-- Deletion from the model of a JavaScript `Map` (`Map.prototype.delete`). -/
def mapDelete {κ α : Type} [BEq κ] (m : List (κ × α)) (k : κ) :
    List (κ × α) :=
  m.filter (fun p => p.1 != k)

/-- UTF-8 encoding of one character, the byte view `hash.update(string)`
takes of its argument. -/
def utf8Bytes (c : Char) : List Nat :=
  let n := c.toNat
  if n < 128 then [n]
  else if n < 2048 then [192 + n / 64, 128 + n % 64]
  else if n < 65536 then [224 + n / 4096, 128 + n / 64 % 64, 128 + n % 64]
  else [240 + n / 262144, 128 + n / 4096 % 64, 128 + n / 64 % 64, 128 + n % 64]

/-- UTF-8 bytes of a string. -/
def strBytes (s : String) : List Nat :=
  s.data.foldr (fun c acc => utf8Bytes c ++ acc) []

/-- The sixteen lowercase hexadecimal digits. -/
def hexChars : List Char :=
  "0123456789abcdef".data

/-- Lowercase hexadecimal digit of a nibble. -/
def hexChar (n : Nat) : Char :=
  (hexChars.get? n).getD (Char.ofNat 48)

/-- Lowercase hexadecimal rendering of a byte string, the model of
`Buffer.prototype.toString("hex")`. -/
def bufToHex (bs : List Nat) : String :=
  String.mk (bs.foldr (fun b acc => hexChar (b / 16) :: hexChar (b % 16) :: acc) [])

/-! ### SHA-256

`lib/util.hash` computes `createHash("sha256")` of the name.  The embedding
implements FIPS 180-4 SHA-256 over byte lists with `Nat` arithmetic modulo
`2^32`. -/

/-- Right rotation of a 32-bit word. -/
def rotr32 (x n : Nat) : Nat :=
  (x >>> n ||| x <<< (32 - n)) % 4294967296

/-- The sixty-four SHA-256 round constants, in decimal. -/
def shaK : List Nat :=
  [
   1116352408, 1899447441, 3049323471, 3921009573, 961987163,
   1508970993, 2453635748, 2870763221, 3624381080, 310598401,
   607225278, 1426881987, 1925078388, 2162078206, 2614888103,
   3248222580, 3835390401, 4022224774, 264347078, 604807628,
   770255983, 1249150122, 1555081692, 1996064986, 2554220882,
   2821834349, 2952996808, 3210313671, 3336571891, 3584528711,
   113926993, 338241895, 666307205, 773529912, 1294757372,
   1396182291, 1695183700, 1986661051, 2177026350, 2456956037,
   2730485921, 2820302411, 3259730800, 3345764771, 3516065817,
   3600352804, 4094571909, 275423344, 430227734, 506948616,
   659060556, 883997877, 958139571, 1322822218, 1537002063,
   1747873779, 1955562222, 2024104815, 2227730452, 2361852424,
   2428436474, 2756734187, 3204031479, 3329325298
  ]

/-- The eight SHA-256 initial hash words, in decimal. -/
def shaH0 : List Nat :=
  [
   1779033703, 3144134277, 1013904242, 2773480762,
   1359893119, 2600822924, 528734635, 1541459225
  ]

/-- Small sigma-0 message-schedule function. -/
def shaS0 (x : Nat) : Nat :=
  (x >>> 3) ^^^ rotr32 x 18 ^^^ rotr32 x 7

/-- Small sigma-1 message-schedule function. -/
def shaS1 (x : Nat) : Nat :=
  (x >>> 10) ^^^ rotr32 x 19 ^^^ rotr32 x 17

/-- Extend a 16-word block to the 64-word message schedule; `n` counts the
remaining words to append. -/
def shaExtend : Nat → List Nat → List Nat
  | 0, ws => ws
  | n + 1, ws =>
    let i := ws.length
    let w := ((ws.get? (i - 16)).getD 0 + shaS0 ((ws.get? (i - 15)).getD 0) +
              (ws.get? (i - 7)).getD 0 + shaS1 ((ws.get? (i - 2)).getD 0)) %
             4294967296
    shaExtend n (ws ++ [w])

/-- One SHA-256 compression round. -/
def shaRound (st : List Nat) (kw : Nat × Nat) : List Nat :=
  let a := (st.get? 0).getD 0
  let b := (st.get? 1).getD 0
  let c := (st.get? 2).getD 0
  let d := (st.get? 3).getD 0
  let e := (st.get? 4).getD 0
  let f := (st.get? 5).getD 0
  let g := (st.get? 6).getD 0
  let h := (st.get? 7).getD 0
  let s1 := rotr32 e 25 ^^^ rotr32 e 11 ^^^ rotr32 e 6
  let ch := (g &&& (4294967295 - e)) ^^^ (f &&& e)
  let t1 := (h + s1 + ch + kw.1 + kw.2) % 4294967296
  let s0 := rotr32 a 22 ^^^ rotr32 a 13 ^^^ rotr32 a 2
  let mj := (c &&& b) ^^^ (c &&& a) ^^^ (b &&& a)
  let t2 := (s0 + mj) % 4294967296
  [(t1 + t2) % 4294967296, a, b, c, (d + t1) % 4294967296, e, f, g]

/-- Compress one 64-byte block into the running hash state. -/
def shaBlock (h : List Nat) (block : List Nat) : List Nat :=
  let ws0 := (List.range 16).map (fun i => readBE block (4 * i) 4)
  let ws := shaExtend 48 ws0
  let st := (shaK.zip ws).foldl (fun st kw => shaRound st (kw.1, kw.2)) h
  (List.range 8).map (fun i => ((h.get? i).getD 0 + (st.get? i).getD 0) % 4294967296)

/-- SHA-256 padding: `0x80`, zeros to 56 mod 64, then the 64-bit bit length. -/
def shaPad (msg : List Nat) : List Nat :=
  msg ++ [128] ++ List.replicate ((119 - msg.length % 64) % 64) 0 ++
    writeBE 8 (8 * msg.length)

/-- Fold the padded message a block at a time; `n` is the number of blocks. -/
def shaBlocks : Nat → List Nat → List Nat → List Nat
  | 0, h, _ => h
  | n + 1, h, bytes => shaBlocks n (shaBlock h (bytes.take 64)) (bytes.drop 64)

/-- SHA-256 digest (32 bytes) of a byte string. -/
def sha256 (msg : List Nat) : List Nat :=
  let padded := shaPad msg
  let h := shaBlocks (padded.length / 64) shaH0 padded
  h.foldr (fun w acc => writeBE 4 w ++ acc) []

/-- Embedding of `lib/util.hash`: the SHA-256 digest of the UTF-8 bytes of
the name (`createHash("sha256").update(name).digest()`). -/
def hash (sign_source : String) : List Nat :=
  sha256 (strBytes sign_source)

/-! ### Chunk codec (`kernel/chunk.ts`)

`diff_size = chunk_size - 17`.  Optional fields model the TypeScript
`undefined` (`next?: bigint`, `next_track?: number`). -/

/-- A chunk handed to the encoder (`interface Chunk`). -/
structure Chunk where
  id : Nat
  next : Option Nat
  next_track : Option Nat
  data : List Nat
  deriving DecidableEq, Repr

/-- A fully decoded chunk (`interface Result`). -/
structure ChunkResult where
  id : Nat
  exist : Bool
  next : Option Nat
  next_track : Option Nat
  data : List Nat
  deriving DecidableEq, Repr

/-- A lazily decoded chunk, linkage fields only (`interface LazyResult`). -/
structure LazyResult where
  next : Option Nat
  next_track : Option Nat
  deriving DecidableEq, Repr

/-- Embedding of `encoder`: allocate a zeroed `chunk_size` buffer, then
`writeInt32BE(id, 0)`, `writeInt8(1, 4)`,
`writeInt16BE(diff_size ? 0 : data.length, 5)` (the source tests the
truthiness of `diff_size` itself), `writeBigInt64BE(next || 0n, 7)`,
`writeInt16BE(next_track || 0, 15)`, `data.copy(packet, 17)`. -/
def encoder (chunk_size : Nat) (c : Chunk) : List Nat :=
  let diff_size := chunk_size - 17
  let packet := List.replicate chunk_size 0
  let packet := bufWriteAt packet 0 (writeBE 4 c.id)
  let packet := bufWriteAt packet 4 [1]
  let packet := bufWriteAt packet 5
    (writeBE 2 (if diff_size != 0 then 0 else c.data.length))
  let packet := bufWriteAt packet 7 (writeBE 8 (c.next.getD 0))
  let packet := bufWriteAt packet 15 (writeBE 2 (c.next_track.getD 0))
  bufWriteAt packet 17 c.data

/-- Embedding of `decoder`: the payload is
`chunk.subarray(17, size === 0 ? diff_size : size)` — the second argument of
`subarray` is an end index, kept as such here. -/
def decoder (chunk_size : Nat) (chunk : List Nat) : ChunkResult :=
  let diff_size := chunk_size - 17
  let id := readBE chunk 0 4
  let exist0 := readBE chunk 4 1
  let size := readBE chunk 5 2
  let next0 := readBE chunk 7 8
  let next_track0 := readBE chunk 15 2
  let data := ((chunk.take (if size == 0 then diff_size else size)).drop 17)
  { id := id
    exist := exist0 == 1
    next := if next0 == 0 then none else some next0
    next_track := if next_track0 == 0 then none else some next_track0
    data := data }

/-- Embedding of `lazy_decoder`: only the linkage fields at offsets 7, 15. -/
def lazy_decoder (chunk : List Nat) : LazyResult :=
  let next0 := readBE chunk 7 8
  let next_track0 := readBE chunk 15 2
  { next := if next0 == 0 then none else some next0
    next_track := if next_track0 == 0 then none else some next_track0 }

/-! ### Track (`kernel/track.ts`, the version whose `remove` returns a
`LazyResult` continuation)

The in-memory state owns the backing file's bytes.  `size` is kept as an
`Int` because `remove` decrements it unconditionally. -/

/-- In-memory track state plus the bytes of its backing `<id>.track` file. -/
structure TrackState where
  file : List Nat
  free_start : Nat
  free_end : Nat
  size : Int
  id : Nat
  deriving DecidableEq, Repr

/-- A freshly initialized empty track: `initialize` stats a 0-byte file and
`read_free` writes the 16-byte zero header (`default_header`), setting
`size = 16`. -/
def freshTrack (id : Nat) : TrackState :=
  { file := List.replicate 16 0, free_start := 0, free_end := 0, size := 16, id := id }

/-- Embedding of `Track.read`: positional read of `chunk_size` bytes at
`index`, then full decode. -/
def track_read (chunk_size : Nat) (s : TrackState) (index : Nat) : ChunkResult :=
  decoder chunk_size (fileReadBuf s.file index chunk_size)

/-- Embedding of `Track.alloc`: pop the free list head, or hand out the
current `size` cursor (never negative in the states considered, whence the
`toNat` view of the live-bytes counter). -/
def track_alloc (chunk_size : Nat) (s : TrackState) : Nat × TrackState :=
  if s.free_start == 0 then (s.size.toNat, s)
  else
    let free_buf := fileReadBuf s.file s.free_start chunk_size
    let value := lazy_decoder free_buf
    let free_start := s.free_start
    let fs1 := value.next.getD 0
    let s := { s with free_start := fs1 }
    let s := if s.free_start == 0 then { s with free_end := 0 } else s
    (free_start, s)

/-- Embedding of `Track.write`: encode the chunk and positionally write it at
`index`.  (This version of the source never updates `size` here.) -/
def track_write (chunk_size : Nat) (s : TrackState) (c : Chunk) (index : Nat) :
    TrackState :=
  { s with file := fileWrite s.file index (encoder chunk_size c) }

/-- Embedding of `Track.write_end`: persist `free_start` at file offset 0 and
`free_end` at file offset 8. -/
def track_write_end (s : TrackState) : TrackState :=
  { s with file := fileWrite s.file 0 (writeBE 8 s.free_start ++ writeBE 8 s.free_end) }

/-- The loop of `Track.remove`; `i` is the source's iteration counter and
`fuel` bounds the unbounded `for` loop (every claim instantiates it beyond
the length of the traversed chain).  Returns the cross-track continuation
(`return value`) or `none` for the source's `break`/fall-through paths. -/
def track_remove_loop (chunk_size track_size : Nat) :
    TrackState → Nat → Nat → Nat → Option LazyResult × TrackState
  | s, _, _, 0 => (none, s)
  | s, offset, i, fuel + 1 =>
    if track_size ≤ offset then (none, s)
    else
      let size := fileReadSize s.file offset chunk_size
      if size == 0 then (none, s)
      else
        let chunk := fileReadBuf s.file offset chunk_size
        let s := { s with size := s.size - chunk_size }
        let s := { s with file := fileWrite s.file (offset + 4) [0] }
        let value := lazy_decoder chunk
        let s :=
          if s.free_start == 0 then
            { s with file := fileWrite s.file 0 (writeBE 8 offset), free_start := offset }
          else s
        let s :=
          if s.free_end > 0 && i == 0 then
            { s with file := fileWrite s.file (s.free_end + 7) (writeBE 8 offset) }
          else s
        match value.next with
        | none =>
          -- the source writes the tail at file offset 0 (`file.write(end_buf, 0)`)
          (none, { s with file := fileWrite s.file 0 (writeBE 8 offset), free_end := offset })
        | some n =>
          if value.next_track != some s.id then (some value, s)
          else track_remove_loop chunk_size track_size s n (i + 1) fuel

/-- Embedding of `Track.remove` starting at the chain head `index`. -/
def track_remove (chunk_size track_size : Nat) (s : TrackState) (index fuel : Nat) :
    Option LazyResult × TrackState :=
  track_remove_loop chunk_size track_size s index 0 fuel

/-! ### Volume streams (`kernel/storage.ts`, the version with streaming
`Reader` and `Writer`)

The track table `{ [key: number]: Track }` is a numeric-keyed map. -/

/-- The volume's track table. -/
abbrev TracksMap : Type := List (Nat × TrackState)

/-- Cursor of the read stream. -/
structure ReaderState where
  track : Nat
  index : Nat
  deriving DecidableEq, Repr

/-- Embedding of `Reader._read`: decode the chunk at the cursor, advance the
cursor along `(next_track, next)`, then
`push(value.next === undefined ? null : value.data)` — the emitted item is
`none` (stream end) exactly when the decoded `next` is `undefined`.
The outer `none` models the crash on a missing track. -/
def reader_read (chunk_size : Nat) (tracks : TracksMap) (s : ReaderState) :
    Option (ReaderState × Option (List Nat)) :=
  match mapGet tracks s.track with
  | none => none
  | some tr =>
    let value := track_read chunk_size tr s.index
    let s := match value.next with
      | some n => { s with index := n }
      | none => s
    let s := match value.next_track with
      | some t => { s with track := t }
      | none => s
    some (s, match value.next with
      | none => none
      | some _ => some value.data)

/-- The staged previous chunk of the write stream (`interface Previous`). -/
structure Previous where
  track : Nat
  index : Nat
  id : Nat
  data : List Nat
  next : Option Nat
  next_track : Option Nat
  deriving DecidableEq, Repr

/-- View of a staged `Previous` as the `Chunk` handed to `Track.write`. -/
def prevChunk (p : Previous) : Chunk :=
  { id := p.id, next := p.next, next_track := p.next_track, data := p.data }

/-- State of the write stream.  The source also declares the dead fields
`index?` and `first`, which no code path reads or meaningfully writes. -/
structure WriterState where
  tracks : TracksMap
  write_tracks : List Nat
  previous : Option Previous
  buffer : List Nat
  track : Nat
  id : Nat
  deriving DecidableEq, Repr

/-- A freshly constructed write stream over the volume's track table. -/
def writer_init (tracks : TracksMap) : WriterState :=
  { tracks := tracks, write_tracks := [], previous := none, buffer := [],
    track := 0, id := 0 }

/-- Largest key of the track table (0 when empty). -/
def maxTrackId (ts : TracksMap) : Nat :=
  ts.foldl (fun a p => max a p.1) 0

/-- Embedding of `Writer.alloc`: advance `track` past full tracks; a missing
track is created through the volume's creation callback (a fresh initialized
track) and the loop breaks.  The loop visits at most the ids up to the first
missing one, so any fuel beyond `maxTrackId + 2` is never exhausted. -/
def writer_alloc (chunk_size track_size : Nat) : WriterState → Nat → WriterState
  | s, 0 => s
  | s, fuel + 1 =>
    match mapGet s.tracks s.track with
    | none => { s with tracks := mapSet s.tracks s.track (freshTrack s.track) }
    | some tr =>
      if tr.size + (chunk_size : Int) > (track_size : Int) then
        writer_alloc chunk_size track_size { s with track := s.track + 1 } fuel
      else s

/-- The `for (let offset = 0;;)` loop of `Writer._write`.  The source never
changes `offset` inside the loop; the embedding keeps it as a parameter and
passes it through unchanged, exactly as the source does.  `none` models a
run that was still looping when the fuel ran out (or the crash on a missing
track in the unreachable lookup arms). -/
def writer_write_loop (chunk_size track_size : Nat) :
    WriterState → Nat → Nat → Option WriterState
  | _, _, 0 => none
  | s, offset, fuel + 1 =>
    let diff_size := chunk_size - 17
    let start := offset * diff_size
    let e := start + diff_size
    if s.buffer.length ≤ e then some { s with buffer := s.buffer.drop e }
    else
      let s := writer_alloc chunk_size track_size s (maxTrackId s.tracks + 2)
      let s := { s with write_tracks := setAdd s.write_tracks s.track }
      match mapGet s.tracks s.track with
      | none => none
      | some current_track =>
        let it := track_alloc chunk_size current_track
        let index := it.1
        let s := { s with tracks := mapSet s.tracks s.track it.2 }
        let s :=
          match s.previous with
          | none => s
          | some p =>
            let p := { p with next := some index, next_track := some s.track }
            match mapGet s.tracks p.track with
            | none => s
            | some ptr =>
              { s with
                tracks := mapSet s.tracks p.track
                  (track_write chunk_size ptr (prevChunk p) p.index) }
        let s :=
          { s with
            previous := some
              { track := s.track, index := index, id := s.id,
                data := (s.buffer.take e).drop start, next := none, next_track := none }
            id := s.id + 1 }
        writer_write_loop chunk_size track_size s offset fuel

/-- Embedding of `Writer._write` (one pushed input chunk): append to the
internal buffer, return early below `diff_size`, otherwise run the loop. -/
def writer_write (chunk_size track_size : Nat) (s : WriterState)
    (chunk : List Nat) (fuel : Nat) : Option WriterState :=
  let s := { s with buffer := s.buffer ++ chunk }
  if s.buffer.length < chunk_size - 17 then some s
  else writer_write_loop chunk_size track_size s 0 fuel

/-- Embedding of `Writer._final`: flush the staged previous chunk, then call
`write_end` on every touched track. -/
def writer_final (chunk_size : Nat) (s : WriterState) : WriterState :=
  let s :=
    match s.previous with
    | none => s
    | some p =>
      match mapGet s.tracks p.track with
      | none => s
      | some tr =>
        { s with
          tracks := mapSet s.tracks p.track
            (track_write chunk_size tr (prevChunk p) p.index) }
  { s with
    tracks := s.write_tracks.foldl
      (fun ts tid =>
        match mapGet ts tid with
        | none => ts
        | some tr => mapSet ts tid (track_write_end tr)) s.tracks }

/-! ### Name index (`kernel/index.ts`, the 54-byte-record version)

Records are fixed 54-byte entries in an append-only file; the cache maps the
hex digest of the name to an `IndexCache` entry.  `Date.now()` appears as an
explicit `now` argument. -/

/-- A decoded index record (`interface PrivateIndex`). -/
structure PrivateIndex where
  key : List Nat
  start_chunk : Nat × Nat
  start_matedata : Nat × Nat
  deriving DecidableEq, Repr

/-- A cached index entry (`interface IndexCache`). -/
structure IndexCache where
  offset : Nat
  cycle : Nat
  link : Nat
  start_chunk : Nat × Nat
  start_matedata : Nat × Nat
  deriving DecidableEq, Repr

/-- An index mutation request (`interface Index` of the source; renamed to
avoid clashing with the class). -/
structure IndexEntry where
  name : String
  start_chunk : Nat × Nat
  start_matedata : Nat × Nat
  deriving DecidableEq, Repr

/-- The heads returned by `get` (`interface Result` of the source). -/
structure IndexResult where
  start_chunk : Nat × Nat
  start_matedata : Nat × Nat
  deriving DecidableEq, Repr

/-- Embedding of the record `Decoder`: length and magic checks, then the key
at bytes 2–33 and the four head fields; the source assigns the fields read
at offsets 34/36 (named `matedata_track`/`matedata_index` there) to
`start_chunk`, and the fields at 44/46 to `start_matedata`. -/
def Decoder (chunk : List Nat) : Option PrivateIndex :=
  if chunk.length != 54 then none
  else if readBE chunk 0 2 != 0x9900 then none
  else
    let key := (chunk.take 34).drop 2
    let matedata_track := readBE chunk 34 2
    let matedata_index := readBE chunk 36 8
    let chunk_track := readBE chunk 44 2
    let chunk_index := readBE chunk 46 8
    some { key := key
           start_chunk := (matedata_track, matedata_index)
           start_matedata := (chunk_track, chunk_index) }

/-- Embedding of the record `Encoder`: magic, key, `start_matedata` at
offsets 34/36, `start_chunk` at offsets 44/46. -/
def Encoder (index : PrivateIndex) : List Nat :=
  let buffer := List.replicate 54 0
  let buffer := bufWriteAt buffer 0 (writeBE 2 0x9900)
  let buffer := bufWriteAt buffer 2 index.key
  let buffer := bufWriteAt buffer 34 (writeBE 2 index.start_matedata.1)
  let buffer := bufWriteAt buffer 36 (writeBE 8 index.start_matedata.2)
  let buffer := bufWriteAt buffer 44 (writeBE 2 index.start_chunk.1)
  let buffer := bufWriteAt buffer 46 (writeBE 8 index.start_chunk.2)
  buffer

/-- In-memory index state plus the bytes of the backing `index` file.  The
`offsets_cache` is a `Map<number, boolean>` whose values are always `true`,
modelled as its key set. -/
structure IndexState where
  file : List Nat
  file_size : Nat
  cache : List (String × IndexCache)
  offsets_cache : List Nat
  deriving DecidableEq, Repr

/-- The empty index over an empty file. -/
def emptyIndex : IndexState :=
  { file := [], file_size := 0, cache := [], offsets_cache := [] }

/-- The loop of `parse`, generic in the handler closure's captured state `σ`
(`ParseHandle` returns `true` to stop).  `seenOf` reads the
`offsets_cache` the source consults through `this`, which `load_all`'s
handler mutates while the loop runs. -/
def parseAux {σ : Type} (file : List Nat) (seenOf : σ → List Nat)
    (handle : σ → PrivateIndex → Nat → σ × Bool) : σ → Nat → Nat → σ
  | st, _, 0 => st
  | st, i, fuel + 1 =>
    let offset := i * 54
    if setHas (seenOf st) offset then parseAux file seenOf handle st (i + 1) fuel
    else
      let size := fileReadSize file offset 54
      if size == 0 then st
      else
        let chunk := fileRead file offset 54
        match Decoder chunk with
        | none => parseAux file seenOf handle st (i + 1) fuel
        | some value =>
          let r := handle st value offset
          if r.2 then r.1 else parseAux file seenOf handle r.1 (i + 1) fuel

/-- Fuel that strictly exceeds the record index at which `parse` halts: the
scan stops at the first unseen offset past the end of the file, and every
offset the handlers add to the seen set lies inside the file. -/
def parseFuel (file : List Nat) (seen : List Nat) : Nat :=
  file.length / 54 + (seen.foldl max 0) / 54 + 2

/-- Embedding of `load_all`: scan every unseen record into the cache
(`Map.set`, so a later record with the same key overwrites an earlier one)
and mark its offset seen; the handler never stops the scan. -/
def load_all (now : Nat) (s : IndexState) : IndexState :=
  parseAux s.file (fun st => st.offsets_cache)
    (fun st value offset =>
      ({ st with
         cache := mapSet st.cache (bufToHex value.key)
           { start_matedata := value.start_matedata
             start_chunk := value.start_chunk
             cycle := now, link := 0, offset := offset }
         offsets_cache := setAdd st.offsets_cache offset }, false))
    s 0 (parseFuel s.file s.offsets_cache)

/-- Embedding of `set_index` (the handler behind the queue-serialised
`set`): reject a cached duplicate, else cache the entry at the current
`file_size`, mark the offset seen, append the encoded record, and advance
`file_size` by 54. -/
def set_index (index : IndexEntry) (now : Nat) (s : IndexState) :
    Bool × IndexState :=
  let key := hash index.name
  let key_hex := bufToHex key
  if mapHas s.cache key_hex then (false, s)
  else
    let s :=
      { s with
        offsets_cache := setAdd s.offsets_cache s.file_size
        cache := mapSet s.cache key_hex
          { start_matedata := index.start_matedata
            start_chunk := index.start_chunk
            offset := s.file_size
            cycle := now, link := 0 } }
    let packet := Encoder
      { key := key, start_chunk := index.start_chunk,
        start_matedata := index.start_matedata }
    (true, { s with file := s.file ++ packet, file_size := s.file_size + 54 })

/-- Embedding of `get`: serve a cache hit (bumping `cycle` and `link`),
otherwise scan the file with a handler that records every visited offset and
stops at the first unseen record whose key matches; on a hit, cache it. -/
def index_get (name : String) (now : Nat) (s : IndexState) :
    Option IndexResult × IndexState :=
  let key := hash name
  let key_hex := bufToHex key
  if mapHas s.cache key_hex then
    match mapGet s.cache key_hex with
    | some value =>
      let value := { value with cycle := now, link := value.link + 1 }
      (some { start_chunk := value.start_chunk, start_matedata := value.start_matedata },
       { s with cache := mapSet s.cache key_hex value })
    | none => (none, s)
  else
    let r := parseAux s.file (fun _ => s.offsets_cache)
      (fun st value index =>
        if (key == value.key) = false then ((index, st.2), false)
        else ((index, some value), true))
      ((0, none) : Nat × Option PrivateIndex) 0
      (parseFuel s.file s.offsets_cache)
    match r.2 with
    | none => (none, s)
    | some hit =>
      let s :=
        { s with
          offsets_cache := setAdd s.offsets_cache r.1
          cache := mapSet s.cache key_hex
            { start_matedata := hit.start_matedata
              start_chunk := hit.start_chunk
              cycle := now, link := 0, offset := r.1 } }
      (some { start_matedata := hit.start_matedata, start_chunk := hit.start_chunk }, s)

/-- Embedding of `remove`: `this.cache.delete(name)` — the argument passed
to the cache deletion is the name itself. -/
def index_remove (name : String) (s : IndexState) : Bool × IndexState :=
  (mapHas s.cache name, { s with cache := mapDelete s.cache name })

/-! ### Concrete fixtures

The test geometry of the specification: `chunk_size C = 64` (so the payload
capacity is `D = 47`) and `track_size T = 256`. -/

/-- A terminal chunk (no successor) with a short payload. -/
def chunkA : Chunk :=
  { id := 0, next := none, next_track := none, data := [1, 2, 3] }

/-- A track whose file holds the 16-byte header and the single chunk
`chunkA` at offset 16. -/
def trackA : TrackState :=
  { file := List.replicate 16 0 ++ encoder 64 chunkA,
    free_start := 0, free_end := 0, size := 80, id := 0 }

/-- A volume with one freshly initialized track. -/
def tracks0 : TracksMap := [(0, freshTrack 0)]

/-- An index mutation for the name `a`. -/
def entryA : IndexEntry :=
  { name := "a", start_chunk := (3, 4), start_matedata := (1, 2) }

/-- The index state after `set` of `entryA` on an empty index. -/
def stateA : IndexState := (set_index entryA 5 emptyIndex).2

/-- First of two index records sharing the key `sha256("a")`. -/
def recA1 : PrivateIndex :=
  { key := hash "a", start_matedata := (1, 2), start_chunk := (3, 4) }

/-- Second index record with the same key but different heads. -/
def recA2 : PrivateIndex :=
  { key := hash "a", start_matedata := (5, 6), start_chunk := (7, 8) }

/-- An index file holding the two duplicate-key records, with nothing cached
(the state a `get` miss scans). -/
def indexAB : IndexState :=
  { file := Encoder recA1 ++ Encoder recA2, file_size := 108,
    cache := [], offsets_cache := [] }

/-! ## Lemma kit

Structural facts about the byte helpers, the encoders, the map model and
SHA-256, shared by the claim theorems. -/

theorem writeBE_length (w v : Nat) : (writeBE w v).length = w := by
  induction w generalizing v with
  | zero => rfl
  | succ w ih => simp [writeBE, ih]

theorem beVal_writeBE_go (w v a : Nat) :
    (writeBE w v).foldl (fun x b => x * 256 + b) a = a * 256 ^ w + v % 256 ^ w := by
  induction w generalizing v a with
  | zero => simp [writeBE, Nat.mod_one]
  | succ w ih =>
    have hpow : (256 : Nat) ^ (w + 1) = 256 * 256 ^ w := by ring
    have hm : v % 256 ^ (w + 1) = v % 256 + 256 * (v / 256 % 256 ^ w) := by
      rw [hpow, Nat.mod_mul]
    simp only [writeBE, List.foldl_append, ih, List.foldl_cons, List.foldl_nil]
    rw [hm]; ring

theorem beVal_writeBE (w v : Nat) : beVal (writeBE w v) = v % 256 ^ w := by
  simpa [beVal] using beVal_writeBE_go w v 0

theorem readBE_at (pre mid post : List Nat) (off w : Nat)
    (hoff : pre.length = off) (hw : mid.length = w) :
    readBE (pre ++ (mid ++ post)) off w = beVal mid := by
  unfold readBE
  rw [List.drop_left' hoff, List.take_left' hw]

theorem readBE_field (pre post : List Nat) (off w v : Nat)
    (hoff : pre.length = off) :
    readBE (pre ++ (writeBE w v ++ post)) off w = v % 256 ^ w := by
  rw [readBE_at pre (writeBE w v) post off w hoff (writeBE_length w v), beVal_writeBE]

theorem bufWriteAt_tail (pre src : List Nat) (k off : Nat)
    (hoff : pre.length = off) :
    bufWriteAt (pre ++ List.replicate k 0) off src =
      pre ++ (src.take k ++ List.replicate (k - src.length) 0) := by
  subst hoff
  unfold bufWriteAt
  rw [List.take_left, List.drop_append, List.drop_replicate]
  simp [Nat.add_sub_cancel_left]

theorem bufWriteAt_boundary (a src : List Nat) (k off : Nat)
    (hoff : a.length = off) (hfit : src.length ≤ k) :
    bufWriteAt (a ++ List.replicate k 0) off src =
      a ++ src ++ List.replicate (k - src.length) 0 := by
  rw [bufWriteAt_tail a src k off hoff, List.take_of_length_le hfit,
    List.append_assoc]

theorem encoder_shape (cs : Nat) (c : Chunk) (h17 : 17 ≤ cs) :
    encoder cs c =
      writeBE 4 c.id ++ [1] ++
        writeBE 2 (if cs - 17 != 0 then 0 else c.data.length) ++
        writeBE 8 (c.next.getD 0) ++ writeBE 2 (c.next_track.getD 0) ++
        c.data.take (cs - 17) ++ List.replicate (cs - 17 - c.data.length) 0 := by
  have e1 : bufWriteAt (List.replicate cs 0) 0 (writeBE 4 c.id)
      = writeBE 4 c.id ++ List.replicate (cs - 4) 0 := by
    rw [show (List.replicate cs 0) = [] ++ List.replicate cs 0 by simp,
      bufWriteAt_boundary [] _ cs 0 rfl (by rw [writeBE_length]; omega),
      writeBE_length]
    simp
  have e2 : bufWriteAt (writeBE 4 c.id ++ List.replicate (cs - 4) 0) 4 [1]
      = writeBE 4 c.id ++ [1] ++ List.replicate (cs - 5) 0 := by
    rw [bufWriteAt_boundary _ _ _ _ (writeBE_length 4 c.id) (by simp; omega)]
    have h45 : cs - 4 - 1 = cs - 5 := by omega
    simp [h45]
  have e3 : bufWriteAt (writeBE 4 c.id ++ [1] ++ List.replicate (cs - 5) 0) 5
        (writeBE 2 (if cs - 17 != 0 then 0 else c.data.length))
      = writeBE 4 c.id ++ [1] ++
          writeBE 2 (if cs - 17 != 0 then 0 else c.data.length) ++
          List.replicate (cs - 7) 0 := by
    rw [bufWriteAt_boundary _ _ _ _ (by simp [writeBE_length])
      (by rw [writeBE_length]; omega)]
    have h57 : cs - 5 - 2 = cs - 7 := by omega
    simp [writeBE_length, h57]
  have e4 : bufWriteAt (writeBE 4 c.id ++ [1] ++
        writeBE 2 (if cs - 17 != 0 then 0 else c.data.length) ++
        List.replicate (cs - 7) 0) 7 (writeBE 8 (c.next.getD 0))
      = writeBE 4 c.id ++ [1] ++
          writeBE 2 (if cs - 17 != 0 then 0 else c.data.length) ++
          writeBE 8 (c.next.getD 0) ++ List.replicate (cs - 15) 0 := by
    rw [bufWriteAt_boundary _ _ _ _ (by simp [writeBE_length])
      (by rw [writeBE_length]; omega)]
    have h715 : cs - 7 - 8 = cs - 15 := by omega
    simp [writeBE_length, h715]
  have e5 : bufWriteAt (writeBE 4 c.id ++ [1] ++
        writeBE 2 (if cs - 17 != 0 then 0 else c.data.length) ++
        writeBE 8 (c.next.getD 0) ++ List.replicate (cs - 15) 0) 15
        (writeBE 2 (c.next_track.getD 0))
      = writeBE 4 c.id ++ [1] ++
          writeBE 2 (if cs - 17 != 0 then 0 else c.data.length) ++
          writeBE 8 (c.next.getD 0) ++ writeBE 2 (c.next_track.getD 0) ++
          List.replicate (cs - 17) 0 := by
    rw [bufWriteAt_boundary _ _ _ _ (by simp [writeBE_length])
      (by rw [writeBE_length]; omega)]
    have h1517 : cs - 15 - 2 = cs - 17 := by omega
    simp [writeBE_length, h1517]
  have e6 : bufWriteAt (writeBE 4 c.id ++ [1] ++
        writeBE 2 (if cs - 17 != 0 then 0 else c.data.length) ++
        writeBE 8 (c.next.getD 0) ++ writeBE 2 (c.next_track.getD 0) ++
        List.replicate (cs - 17) 0) 17 c.data
      = writeBE 4 c.id ++ [1] ++
          writeBE 2 (if cs - 17 != 0 then 0 else c.data.length) ++
          writeBE 8 (c.next.getD 0) ++ writeBE 2 (c.next_track.getD 0) ++
          c.data.take (cs - 17) ++ List.replicate (cs - 17 - c.data.length) 0 := by
    rw [bufWriteAt_tail _ _ _ _ (by simp [writeBE_length])]
    simp [List.append_assoc]
  simp only [encoder]
  rw [e1, e2, e3, e4, e5, e6]

theorem encoder_length (cs : Nat) (c : Chunk) (h17 : 17 ≤ cs) :
    (encoder cs c).length = cs := by
  rw [encoder_shape cs c h17]
  simp [writeBE_length]
  omega

theorem Encoder_shape (r : PrivateIndex) (hkey : r.key.length = 32) :
    Encoder r = writeBE 2 0x9900 ++ r.key ++ writeBE 2 r.start_matedata.1 ++
      writeBE 8 r.start_matedata.2 ++ writeBE 2 r.start_chunk.1 ++
      writeBE 8 r.start_chunk.2 := by
  have e1 : bufWriteAt (List.replicate 54 0) 0 (writeBE 2 0x9900)
      = writeBE 2 0x9900 ++ List.replicate 52 0 := by
    rw [show (List.replicate 54 0) = [] ++ List.replicate 54 0 by simp,
      bufWriteAt_boundary [] _ 54 0 rfl (by rw [writeBE_length]; omega),
      writeBE_length]
    simp
  have e2 : bufWriteAt (writeBE 2 0x9900 ++ List.replicate 52 0) 2 r.key
      = writeBE 2 0x9900 ++ r.key ++ List.replicate 20 0 := by
    rw [bufWriteAt_boundary _ _ _ _ (writeBE_length 2 0x9900) (by simp [hkey])]
    simp [hkey]
  have e3 : bufWriteAt (writeBE 2 0x9900 ++ r.key ++ List.replicate 20 0) 34
        (writeBE 2 r.start_matedata.1)
      = writeBE 2 0x9900 ++ r.key ++ writeBE 2 r.start_matedata.1 ++
          List.replicate 18 0 := by
    rw [bufWriteAt_boundary _ _ _ _ (by simp [writeBE_length, hkey])
      (by rw [writeBE_length]; omega)]
    simp [writeBE_length]
  have e4 : bufWriteAt (writeBE 2 0x9900 ++ r.key ++ writeBE 2 r.start_matedata.1 ++
        List.replicate 18 0) 36 (writeBE 8 r.start_matedata.2)
      = writeBE 2 0x9900 ++ r.key ++ writeBE 2 r.start_matedata.1 ++
          writeBE 8 r.start_matedata.2 ++ List.replicate 10 0 := by
    rw [bufWriteAt_boundary _ _ _ _ (by simp [writeBE_length, hkey])
      (by rw [writeBE_length]; omega)]
    simp [writeBE_length]
  have e5 : bufWriteAt (writeBE 2 0x9900 ++ r.key ++ writeBE 2 r.start_matedata.1 ++
        writeBE 8 r.start_matedata.2 ++ List.replicate 10 0) 44
        (writeBE 2 r.start_chunk.1)
      = writeBE 2 0x9900 ++ r.key ++ writeBE 2 r.start_matedata.1 ++
          writeBE 8 r.start_matedata.2 ++ writeBE 2 r.start_chunk.1 ++
          List.replicate 8 0 := by
    rw [bufWriteAt_boundary _ _ _ _ (by simp [writeBE_length, hkey])
      (by rw [writeBE_length]; omega)]
    simp [writeBE_length]
  have e6 : bufWriteAt (writeBE 2 0x9900 ++ r.key ++ writeBE 2 r.start_matedata.1 ++
        writeBE 8 r.start_matedata.2 ++ writeBE 2 r.start_chunk.1 ++
        List.replicate 8 0) 46 (writeBE 8 r.start_chunk.2)
      = writeBE 2 0x9900 ++ r.key ++ writeBE 2 r.start_matedata.1 ++
          writeBE 8 r.start_matedata.2 ++ writeBE 2 r.start_chunk.1 ++
          writeBE 8 r.start_chunk.2 := by
    rw [bufWriteAt_boundary _ _ _ _ (by simp [writeBE_length, hkey])
      (by rw [writeBE_length])]
    simp [writeBE_length]
  simp only [Encoder]
  rw [e1, e2, e3, e4, e5, e6]

theorem Encoder_length (r : PrivateIndex) (hkey : r.key.length = 32) :
    (Encoder r).length = 54 := by
  rw [Encoder_shape r hkey]
  simp [writeBE_length, hkey]

theorem Decoder_Encoder (r : PrivateIndex) (hkey : r.key.length = 32)
    (hm1 : r.start_matedata.1 < 32768) (hm2 : r.start_matedata.2 < 9223372036854775808)
    (hc1 : r.start_chunk.1 < 32768) (hc2 : r.start_chunk.2 < 9223372036854775808) :
    Decoder (Encoder r) =
      some { key := r.key, start_chunk := r.start_matedata,
             start_matedata := r.start_chunk } := by
  have hlen : (Encoder r).length = 54 := Encoder_length r hkey
  have hmagic : readBE (Encoder r) 0 2 = 0x9900 := by
    rw [Encoder_shape r hkey,
      show writeBE 2 0x9900 ++ r.key ++ writeBE 2 r.start_matedata.1 ++
          writeBE 8 r.start_matedata.2 ++ writeBE 2 r.start_chunk.1 ++
          writeBE 8 r.start_chunk.2
        = [] ++ (writeBE 2 0x9900 ++ (r.key ++ writeBE 2 r.start_matedata.1 ++
          writeBE 8 r.start_matedata.2 ++ writeBE 2 r.start_chunk.1 ++
          writeBE 8 r.start_chunk.2)) by simp [List.append_assoc],
      readBE_field [] _ 0 2 0x9900 (by simp)]
    norm_num
  have hkeyx : ((Encoder r).take 34).drop 2 = r.key := by
    rw [Encoder_shape r hkey,
      show writeBE 2 0x9900 ++ r.key ++ writeBE 2 r.start_matedata.1 ++
          writeBE 8 r.start_matedata.2 ++ writeBE 2 r.start_chunk.1 ++
          writeBE 8 r.start_chunk.2
        = (writeBE 2 0x9900 ++ r.key) ++ (writeBE 2 r.start_matedata.1 ++
          writeBE 8 r.start_matedata.2 ++ writeBE 2 r.start_chunk.1 ++
          writeBE 8 r.start_chunk.2) by simp [List.append_assoc],
      List.take_left' (by simp [writeBE_length, hkey]),
      List.drop_left' (writeBE_length 2 0x9900)]
  have hf1 : readBE (Encoder r) 34 2 = r.start_matedata.1 := by
    rw [Encoder_shape r hkey,
      show writeBE 2 0x9900 ++ r.key ++ writeBE 2 r.start_matedata.1 ++
          writeBE 8 r.start_matedata.2 ++ writeBE 2 r.start_chunk.1 ++
          writeBE 8 r.start_chunk.2
        = (writeBE 2 0x9900 ++ r.key) ++ (writeBE 2 r.start_matedata.1 ++
          (writeBE 8 r.start_matedata.2 ++ writeBE 2 r.start_chunk.1 ++
          writeBE 8 r.start_chunk.2)) by simp [List.append_assoc],
      readBE_field _ _ _ _ _ (by simp [writeBE_length, hkey])]
    exact Nat.mod_eq_of_lt (lt_trans hm1 (by norm_num))
  have hf2 : readBE (Encoder r) 36 8 = r.start_matedata.2 := by
    rw [Encoder_shape r hkey,
      show writeBE 2 0x9900 ++ r.key ++ writeBE 2 r.start_matedata.1 ++
          writeBE 8 r.start_matedata.2 ++ writeBE 2 r.start_chunk.1 ++
          writeBE 8 r.start_chunk.2
        = (writeBE 2 0x9900 ++ r.key ++ writeBE 2 r.start_matedata.1) ++
          (writeBE 8 r.start_matedata.2 ++ (writeBE 2 r.start_chunk.1 ++
          writeBE 8 r.start_chunk.2)) by simp [List.append_assoc],
      readBE_field _ _ _ _ _ (by simp [writeBE_length, hkey])]
    exact Nat.mod_eq_of_lt (lt_trans hm2 (by norm_num))
  have hf3 : readBE (Encoder r) 44 2 = r.start_chunk.1 := by
    rw [Encoder_shape r hkey,
      show writeBE 2 0x9900 ++ r.key ++ writeBE 2 r.start_matedata.1 ++
          writeBE 8 r.start_matedata.2 ++ writeBE 2 r.start_chunk.1 ++
          writeBE 8 r.start_chunk.2
        = (writeBE 2 0x9900 ++ r.key ++ writeBE 2 r.start_matedata.1 ++
          writeBE 8 r.start_matedata.2) ++ (writeBE 2 r.start_chunk.1 ++
          (writeBE 8 r.start_chunk.2)) by simp [List.append_assoc],
      readBE_field _ _ _ _ _ (by simp [writeBE_length, hkey])]
    exact Nat.mod_eq_of_lt (lt_trans hc1 (by norm_num))
  have hf4 : readBE (Encoder r) 46 8 = r.start_chunk.2 := by
    rw [Encoder_shape r hkey,
      show writeBE 2 0x9900 ++ r.key ++ writeBE 2 r.start_matedata.1 ++
          writeBE 8 r.start_matedata.2 ++ writeBE 2 r.start_chunk.1 ++
          writeBE 8 r.start_chunk.2
        = (writeBE 2 0x9900 ++ r.key ++ writeBE 2 r.start_matedata.1 ++
          writeBE 8 r.start_matedata.2 ++ writeBE 2 r.start_chunk.1) ++
          (writeBE 8 r.start_chunk.2 ++ []) by simp [List.append_assoc],
      readBE_field _ _ _ _ _ (by simp [writeBE_length, hkey])]
    exact Nat.mod_eq_of_lt (lt_trans hc2 (by norm_num))
  simp only [Decoder, hlen, hmagic, hkeyx, hf1, hf2, hf3, hf4]
  simp

theorem fileRead_exact (pre mid post : List Nat) (off len : Nat)
    (hoff : pre.length = off) (hlen : mid.length = len) :
    fileRead (pre ++ (mid ++ post)) off len = mid := by
  unfold fileRead
  rw [List.drop_left' hoff, List.take_left' hlen]

theorem fileReadBuf_exact (pre mid post : List Nat) (off len : Nat)
    (hoff : pre.length = off) (hlen : mid.length = len) :
    fileReadBuf (pre ++ (mid ++ post)) off len = mid := by
  unfold fileReadBuf fileReadSize
  rw [fileRead_exact pre mid post off len hoff hlen, hlen]
  simp

theorem fileReadSize_exact (pre mid post : List Nat) (off len : Nat)
    (hoff : pre.length = off) (hlen : mid.length = len) :
    fileReadSize (pre ++ (mid ++ post)) off len = len := by
  unfold fileReadSize
  rw [fileRead_exact pre mid post off len hoff hlen, hlen]

theorem encoder_readBE_next (cs : Nat) (c : Chunk) (h17 : 17 ≤ cs) :
    readBE (encoder cs c) 7 8 = c.next.getD 0 % 256 ^ 8 := by
  rw [encoder_shape cs c h17,
    show writeBE 4 c.id ++ [1] ++
        writeBE 2 (if cs - 17 != 0 then 0 else c.data.length) ++
        writeBE 8 (c.next.getD 0) ++ writeBE 2 (c.next_track.getD 0) ++
        c.data.take (cs - 17) ++ List.replicate (cs - 17 - c.data.length) 0
      = (writeBE 4 c.id ++ [1] ++
          writeBE 2 (if cs - 17 != 0 then 0 else c.data.length)) ++
        (writeBE 8 (c.next.getD 0) ++ (writeBE 2 (c.next_track.getD 0) ++
          c.data.take (cs - 17) ++ List.replicate (cs - 17 - c.data.length) 0))
      by simp [List.append_assoc],
    readBE_field _ _ _ _ _ (by simp [writeBE_length])]

theorem encoder_readBE_next_track (cs : Nat) (c : Chunk) (h17 : 17 ≤ cs) :
    readBE (encoder cs c) 15 2 = c.next_track.getD 0 % 256 ^ 2 := by
  rw [encoder_shape cs c h17,
    show writeBE 4 c.id ++ [1] ++
        writeBE 2 (if cs - 17 != 0 then 0 else c.data.length) ++
        writeBE 8 (c.next.getD 0) ++ writeBE 2 (c.next_track.getD 0) ++
        c.data.take (cs - 17) ++ List.replicate (cs - 17 - c.data.length) 0
      = (writeBE 4 c.id ++ [1] ++
          writeBE 2 (if cs - 17 != 0 then 0 else c.data.length) ++
          writeBE 8 (c.next.getD 0)) ++
        (writeBE 2 (c.next_track.getD 0) ++
          (c.data.take (cs - 17) ++ List.replicate (cs - 17 - c.data.length) 0))
      by simp [List.append_assoc],
    readBE_field _ _ _ _ _ (by simp [writeBE_length])]

theorem lazy_decoder_encoder (cs : Nat) (c : Chunk) (h17 : 17 ≤ cs) :
    lazy_decoder (encoder cs c) =
      { next := if c.next.getD 0 % 256 ^ 8 == 0 then none
          else some (c.next.getD 0 % 256 ^ 8)
        next_track := if c.next_track.getD 0 % 256 ^ 2 == 0 then none
          else some (c.next_track.getD 0 % 256 ^ 2) } := by
  simp only [lazy_decoder, encoder_readBE_next cs c h17,
    encoder_readBE_next_track cs c h17]

theorem decoder_encoder_fields (cs : Nat) (c : Chunk) (h17 : 17 ≤ cs) :
    (decoder cs (encoder cs c)).next =
        (if c.next.getD 0 % 256 ^ 8 == 0 then none
          else some (c.next.getD 0 % 256 ^ 8)) ∧
      (decoder cs (encoder cs c)).next_track =
        (if c.next_track.getD 0 % 256 ^ 2 == 0 then none
          else some (c.next_track.getD 0 % 256 ^ 2)) := by
  constructor <;>
    simp only [decoder, encoder_readBE_next cs c h17,
      encoder_readBE_next_track cs c h17]

theorem shaBlock_length (h block : List Nat) : (shaBlock h block).length = 8 := by
  simp [shaBlock]

theorem shaBlocks_length (n : Nat) :
    ∀ h b : List Nat, h.length = 8 → (shaBlocks n h b).length = 8 := by
  induction n with
  | zero => intro h b hh; exact hh
  | succ n ih => intro h b hh; exact ih _ _ (shaBlock_length h (b.take 64))

theorem sha256_length (msg : List Nat) : (sha256 msg).length = 32 := by
  have hfold : ∀ l : List Nat,
      (l.foldr (fun w acc => writeBE 4 w ++ acc) []).length = 4 * l.length := by
    intro l
    induction l with
    | nil => rfl
    | cons a l ih => simp [writeBE_length, ih]; ring
  simp only [sha256, hfold, shaBlocks_length _ _ _ (by rfl : shaH0.length = 8)]

theorem hash_length (s : String) : (hash s).length = 32 :=
  sha256_length _

theorem mapGet_append_absent {κ α : Type} [BEq κ] [LawfulBEq κ]
    (m : List (κ × α)) (k : κ) (v : α) (h : mapHas m k = false) :
    mapGet (m ++ [(k, v)]) k = some v := by
  have hnone : m.find? (fun p => p.1 == k) = none := by
    rw [List.find?_eq_none]
    intro x hx
    exact (List.any_eq_false.mp h) x hx
  unfold mapGet
  rw [List.find?_append, hnone]
  simp

theorem mapGet_mapOverwrite {κ α : Type} [BEq κ] [LawfulBEq κ]
    (m : List (κ × α)) (k : κ) (v : α) (h : mapHas m k = true) :
    mapGet (m.map (fun p => if p.1 == k then (k, v) else p)) k = some v := by
  induction m with
  | nil => simp [mapHas] at h
  | cons p m ih =>
    by_cases hpk : (p.1 == k) = true
    · simp [mapGet, List.find?_cons, hpk]
    · have h2 : mapHas m k = true := by
        have h' := h
        simp [mapHas, List.any_cons, hpk] at h'
        simpa [mapHas] using h'
      have hb : (p.1 == k) = false := by simpa using hpk
      have hrec := ih h2
      simp only [mapGet, List.map_cons, if_neg hpk] at hrec ⊢
      simp only [List.find?_cons, hb]
      exact hrec

theorem mapGet_mapSet_self {κ α : Type} [BEq κ] [LawfulBEq κ]
    (m : List (κ × α)) (k : κ) (v : α) :
    mapGet (mapSet m k v) k = some v := by
  unfold mapSet
  by_cases h : mapHas m k
  · simp only [h, if_true]
    exact mapGet_mapOverwrite m k v h
  · simp only [h, if_false]
    exact mapGet_append_absent m k v (by simpa using h)

theorem writer_alloc_buffer (cs ts : Nat) (fuel : Nat) :
    ∀ s : WriterState, (writer_alloc cs ts s fuel).buffer = s.buffer := by
  induction fuel with
  | zero => intro s; rfl
  | succ fuel ih =>
    intro s
    unfold writer_alloc
    cases mapGet s.tracks s.track with
    | none => rfl
    | some tr =>
      by_cases hc : tr.size + (cs : Int) > (ts : Int)
      · simp only [hc, if_true]
        exact ih _
      · simp only [hc, if_false]

theorem setHas_setAdd_self (s : List Nat) (x : Nat) :
    setHas (setAdd s x) x = true := by
  unfold setAdd
  by_cases h : setHas s x
  · simp [h]
  · simp only [h, if_false]
    simp [setHas, List.any_append]

/-- The `Writer._write` loop never reaches its exit branch while more than
`diff_size` bytes sit in the buffer: the loop's cursor and buffer never
change, so the exit test stays false and every iteration recurses — the
embedding runs out of any fuel. -/
theorem writer_loop_stuck (fuel : Nat) :
    ∀ s : WriterState, 47 < s.buffer.length →
      writer_write_loop 64 256 s 0 fuel = none := by
  induction fuel with
  | zero => intro s h; rfl
  | succ fuel ih =>
    intro s h
    simp only [writer_write_loop]
    split
    next hcond => exfalso; omega
    next hcond =>
      split
      next => rfl
      next ct hct =>
        apply ih
        cases hp : (writer_alloc 64 256 s (maxTrackId s.tracks + 2)).previous with
        | none =>
          simp only [hp]
          rw [writer_alloc_buffer]
          omega
        | some p =>
          simp only [hp]
          cases hmg2 : mapGet (mapSet (writer_alloc 64 256 s
              (maxTrackId s.tracks + 2)).tracks
              (writer_alloc 64 256 s (maxTrackId s.tracks + 2)).track
              (track_alloc 64 ct).2) p.track with
          | none =>
            simp only [hmg2]
            rw [writer_alloc_buffer]
            omega
          | some ptr =>
            simp only [hmg2, track_write]
            rw [writer_alloc_buffer]
            omega

/-! ## Claim theorems -/

set_option maxHeartbeats 1000000 in
/-- C10: the codec maps an encoded `next_track` of 0 to `undefined` on both
decode paths (and likewise `next_offset` 0), so a successor on track 0 is
not representable after decoding; consequently `Track.remove` on track 0,
at a chunk whose successor lies on track 0 itself, sees
`next_track = undefined ≠ 0` and returns a cross-track continuation instead
of continuing locally. -/
theorem C10_track0_successor_unrepresentable
    (c : Chunk) (n : Nat) (hnext : c.next = some n) (hn0 : 0 < n)
    (hn : n < 9223372036854775808) (hnt : c.next_track = some 0) :
    (lazy_decoder (encoder 64 c)).next_track = none ∧
    (decoder 64 (encoder 64 c)).next_track = none ∧
    (lazy_decoder (encoder 64 c)).next = some n ∧
    (∀ d : Chunk, d.next = some 0 ∨ d.next = none →
      (lazy_decoder (encoder 64 d)).next = none ∧
      (decoder 64 (encoder 64 d)).next = none) ∧
    (∀ fuel : Nat,
      (track_remove 64 256
          { file := List.replicate 16 0 ++ encoder 64 c,
            free_start := 0, free_end := 0, size := 80, id := 0 }
          16 (fuel + 1)).1
        = some { next := some n, next_track := none }) := by
  have h17 : (17 : Nat) ≤ 64 := by norm_num
  have hmod : n % 256 ^ 8 = n := Nat.mod_eq_of_lt (lt_trans hn (by norm_num))
  have hne : (n == 0) = false := by
    simp only [beq_eq_false_iff_ne, ne_eq]
    omega
  have hlz : lazy_decoder (encoder 64 c) = { next := some n, next_track := none } := by
    rw [lazy_decoder_encoder 64 c h17, hnext, hnt]
    simp [hmod, hne]
    omega
  have hdf := decoder_encoder_fields 64 c h17
  refine ⟨?_, ?_, ?_, ?_, ?_⟩
  · rw [hlz]
  · rw [hdf.2, hnt]
    simp
  · rw [hlz]
  · intro d hd
    have hd0 : d.next.getD 0 = 0 := by
      cases hd with
      | inl h => rw [h]; rfl
      | inr h => rw [h]; rfl
    constructor
    · rw [lazy_decoder_encoder 64 d h17, hd0]
      simp
    · rw [(decoder_encoder_fields 64 d h17).1, hd0]
      simp
  · intro fuel
    have hsz : fileReadSize (List.replicate 16 0 ++ encoder 64 c) 16 64 = 64 := by
      rw [show (List.replicate 16 0 : List Nat) ++ encoder 64 c
          = List.replicate 16 0 ++ (encoder 64 c ++ []) by simp]
      exact fileReadSize_exact _ _ _ _ _ (by simp) (encoder_length 64 c h17)
    have hbuf : fileReadBuf (List.replicate 16 0 ++ encoder 64 c) 16 64
        = encoder 64 c := by
      rw [show (List.replicate 16 0 : List Nat) ++ encoder 64 c
          = List.replicate 16 0 ++ (encoder 64 c ++ []) by simp]
      exact fileReadBuf_exact _ _ _ _ _ (by simp) (encoder_length 64 c h17)
    generalize hE : encoder 64 c = E at hsz hbuf hlz
    generalize hF : List.replicate 16 0 ++ E = F at hsz hbuf
    unfold track_remove track_remove_loop
    rw [if_neg (by norm_num : ¬ ((256 : Nat) ≤ 16))]
    simp only [hsz, hbuf, hlz]
    simp

/-- C10 witness: a chunk at offset 16 of track 0 whose successor is the
chunk at offset 32 of track 0. -/
theorem C10_track0_successor_unrepresentable_witness :
    (lazy_decoder (encoder 64 { id := 0, next := some 32, next_track := some 0,
                                data := List.replicate 47 5 })).next_track = none ∧
    (track_remove 64 256
        { file := List.replicate 16 0 ++
            encoder 64 { id := 0, next := some 32, next_track := some 0,
                         data := List.replicate 47 5 },
          free_start := 0, free_end := 0, size := 80, id := 0 } 16 (2 + 1)).1
      = some { next := some 32, next_track := none } :=
  ⟨(C10_track0_successor_unrepresentable
      { id := 0, next := some 32, next_track := some 0,
        data := List.replicate 47 5 } 32 rfl (by decide) (by decide) rfl).1,
   (C10_track0_successor_unrepresentable
      { id := 0, next := some 32, next_track := some 0,
        data := List.replicate 47 5 } 32 rfl (by decide) (by decide) rfl).2.2.2.2 2⟩

/-- C1: the round-trip fails on the code.  Pushing a single byte through the
write stream only buffers it (no chunk is staged, no track is touched), and
closing the stream writes nothing either, so no chain exists to read back;
pushing exactly `D = 47` bytes even returns the writer to its initial state,
silently discarding the data.  Read-back therefore cannot yield `S` for
`|S| = 1` or `|S| = D`. -/
theorem C1_write_then_read_loses_data :
    writer_write 64 256 (writer_init tracks0) [7] 10
      = some { tracks := tracks0, write_tracks := [], previous := none,
               buffer := [7], track := 0, id := 0 } ∧
    (writer_final 64 { tracks := tracks0, write_tracks := [], previous := none,
                       buffer := [7], track := 0, id := 0 }).tracks = tracks0 ∧
    writer_write 64 256 (writer_init tracks0) (List.replicate 47 9) 10
      = some (writer_init tracks0) := by
  decide

/-- C2: the chunk codec does not round-trip.  At `C = 64` (`D = 47`) the
encoder stores `payload_len = 0` even for a 30-byte (non-full) payload,
because it tests the truthiness of `diff_size` instead of comparing the
payload length to `D`; and the full decoder\'s payload slice is
`subarray(17, payload_len or D)` — an end index, not a length — so an
encoded empty payload decodes to the 30 zero bytes at indices 17–46. -/
theorem C2_chunk_codec_roundtrip_fails :
    (decoder 64 (encoder 64 { id := 0, next := none, next_track := none,
                              data := [] })).data = List.replicate 30 0 ∧
    readBE (encoder 64 { id := 0, next := none, next_track := none,
                         data := List.replicate 30 9 }) 5 2 = 0 := by
  decide

/-- C3: the read stream does not emit the terminal chunk\'s payload.  On a
chain consisting of one chunk with `next_offset = 0` and payload `[1,2,3]`,
the very first pull pushes `null` (end-of-stream) instead of the payload:
the source pushes `value.next === undefined ? null : value.data`. -/
theorem C3_reader_drops_terminal_payload :
    reader_read 64 [(0, trackA)] { track := 0, index := 16 }
      = some ({ track := 0, index := 16 }, none) := by
  decide

/-- C4: the push loop of the write stream does not terminate once the
buffer holds more than `D = 47` bytes: the loop never advances `offset` and
never shrinks the buffer, so the exit test stays false for every fuel. -/
theorem C4_writer_push_loop_diverges :
    ∀ fuel : Nat,
      writer_write 64 256 (writer_init tracks0) (List.replicate 48 9) fuel
        = none := by
  intro fuel
  unfold writer_write
  rw [if_neg (by simp [writer_init])]
  exact writer_loop_stuck fuel _ (by simp [writer_init])

/-- C4 witness: the stuck push at a concrete fuel. -/
theorem C4_writer_push_loop_diverges_witness :
    writer_write 64 256 (writer_init tracks0) (List.replicate 48 9) 7 = none :=
  C4_writer_push_loop_diverges 7

/-- C5: the index record codec swaps the two heads on decode: the bytes the
encoder wrote at offsets 34/36 (the metadata head) come back in
`start_chunk`, and the bytes at 44/46 (the payload-chain head) come back in
`start_matedata`. -/
theorem C5_index_codec_swaps_heads :
    Decoder (Encoder { key := List.replicate 32 0, start_chunk := (3, 4),
                       start_matedata := (1, 2) })
      = some { key := List.replicate 32 0, start_chunk := (1, 2),
               start_matedata := (3, 4) } := by
  decide

set_option maxRecDepth 8000 in
/-- C6: when `Track.remove` reaches the chunk whose `next_offset` is 0 it
does set the in-memory `free_end` to that offset, stop, and return no
continuation — but it persists the 8 bytes at file offset 0 (the
`free_head` slot), not at file offset 8 where `read_free`/`write_end` keep
`free_tail`: after removing the one-chunk chain at offset 16, bytes 0–7 of
the file hold 16 and bytes 8–15 are still zero. -/
theorem C6_remove_tail_persisted_at_offset0 :
    (track_remove 64 256 trackA 16 5).1 = none ∧
    (track_remove 64 256 trackA 16 5).2.free_end = 16 ∧
    (track_remove 64 256 trackA 16 5).2.file.take 8 = writeBE 8 16 ∧
    ((track_remove 64 256 trackA 16 5).2.file.drop 8).take 8
      = List.replicate 8 0 := by
  decide

set_option maxRecDepth 8000 in
/-- C7 counterexample: with two records sharing the key `sha256("a")` in the
file (heads `(1,2)/(3,4)` then `(5,6)/(7,8)`) and an empty cache and seen
set, `get("a")` does not return the heads of the last record — under either
assignment of that record\'s two heads to the result fields — because the
miss scan stops at the first matching record. -/
theorem C7_get_scan_not_last_writer :
    (index_get "a" 0 indexAB).1
        ≠ some { start_matedata := (5, 6), start_chunk := (7, 8) } ∧
    (index_get "a" 0 indexAB).1
        ≠ some { start_matedata := (7, 8), start_chunk := (5, 6) } := by
  decide

set_option maxHeartbeats 1000000 in
/-- C7 amended: with two records sharing the key `sha256(name)` in the index
file (the spec's manually-appended-duplicate scenario), last-writer-wins
holds on the load path: `load_all` leaves the cache holding the entry
decoded from the second (later) record, and a subsequent `get` serves that
entry from the cache.  A `get` that misses the cache instead stops its scan
at the first unseen record whose key matches and returns that first
record's decoded entry, not the last one.  (Decoded entries carry the swap
of C5: the fields written at offsets 34/36 come back in `start_chunk`.) -/
theorem C7_last_writer_wins_amended
    (name : String) (now1 now2 now3 : Nat) (m1 c1 m2 c2 : Nat × Nat)
    (hm11 : m1.1 < 32768) (hm12 : m1.2 < 9223372036854775808)
    (hc11 : c1.1 < 32768) (hc12 : c1.2 < 9223372036854775808)
    (hm21 : m2.1 < 32768) (hm22 : m2.2 < 9223372036854775808)
    (hc21 : c2.1 < 32768) (hc22 : c2.2 < 9223372036854775808) :
    mapGet (load_all now1
        { file := Encoder { key := hash name, start_chunk := c1, start_matedata := m1 } ++
            Encoder { key := hash name, start_chunk := c2, start_matedata := m2 },
          file_size := 108, cache := [], offsets_cache := [] }).cache
        (bufToHex (hash name))
      = some { offset := 54, cycle := now1, link := 0,
               start_chunk := m2, start_matedata := c2 } ∧
    (index_get name now2 (load_all now1
        { file := Encoder { key := hash name, start_chunk := c1, start_matedata := m1 } ++
            Encoder { key := hash name, start_chunk := c2, start_matedata := m2 },
          file_size := 108, cache := [], offsets_cache := [] })).1
      = some { start_chunk := m2, start_matedata := c2 } ∧
    (index_get name now3
        { file := Encoder { key := hash name, start_chunk := c1, start_matedata := m1 } ++
            Encoder { key := hash name, start_chunk := c2, start_matedata := m2 },
          file_size := 108, cache := [], offsets_cache := [] }).1
      = some { start_chunk := m1, start_matedata := c1 } := by
  have hK : (hash name).length = 32 := hash_length name
  have hd1 : Decoder (Encoder { key := hash name, start_chunk := c1, start_matedata := m1 })
      = some { key := hash name, start_chunk := m1, start_matedata := c1 } :=
    Decoder_Encoder _ hK hm11 hm12 hc11 hc12
  have hd2 : Decoder (Encoder { key := hash name, start_chunk := c2, start_matedata := m2 })
      = some { key := hash name, start_chunk := m2, start_matedata := c2 } :=
    Decoder_Encoder _ hK hm21 hm22 hc21 hc22
  have hL1 : (Encoder { key := hash name, start_chunk := c1, start_matedata := m1 }).length = 54 :=
    Encoder_length _ hK
  have hL2 : (Encoder { key := hash name, start_chunk := c2, start_matedata := m2 }).length = 54 :=
    Encoder_length _ hK
  generalize hE1 : Encoder { key := hash name, start_chunk := c1, start_matedata := m1 } = E1
    at hd1 hL1 ⊢
  generalize hE2 : Encoder { key := hash name, start_chunk := c2, start_matedata := m2 } = E2
    at hd2 hL2 ⊢
  have hr0 : fileRead (E1 ++ E2) 0 54 = E1 := by
    rw [show E1 ++ E2 = [] ++ (E1 ++ E2) by simp]
    exact fileRead_exact _ _ _ _ _ rfl hL1
  have hs0 : fileReadSize (E1 ++ E2) 0 54 = 54 := by
    rw [show E1 ++ E2 = [] ++ (E1 ++ E2) by simp]
    exact fileReadSize_exact _ _ _ _ _ rfl hL1
  have hr1 : fileRead (E1 ++ E2) 54 54 = E2 := by
    rw [show E1 ++ E2 = E1 ++ (E2 ++ []) by simp]
    exact fileRead_exact _ _ _ _ _ hL1 hL2
  have hs1 : fileReadSize (E1 ++ E2) 54 54 = 54 := by
    rw [show E1 ++ E2 = E1 ++ (E2 ++ []) by simp]
    exact fileReadSize_exact _ _ _ _ _ hL1 hL2
  have hs2 : fileReadSize (E1 ++ E2) 108 54 = 0 := by
    unfold fileReadSize fileRead
    rw [List.drop_eq_nil_of_le (by simp [hL1, hL2])]
    rfl
  have hfuel : parseFuel (E1 ++ E2) [] = 4 := by
    simp [parseFuel, hL1, hL2]
  have hload : load_all now1
      { file := E1 ++ E2, file_size := 108, cache := [], offsets_cache := [] }
      = { file := E1 ++ E2, file_size := 108,
          cache := [(bufToHex (hash name),
            { offset := 54, cycle := now1, link := 0,
              start_chunk := m2, start_matedata := c2 })],
          offsets_cache := [0, 54] } := by
    unfold load_all
    simp only [hfuel]
    simp [parseAux, hs0, hs1, hs2, hr0, hr1, hd1, hd2, setHas, setAdd,
      mapSet, mapHas, mapGet]
  refine ⟨?_, ?_, ?_⟩
  · rw [hload]
    simp [mapGet]
  · rw [hload]
    unfold index_get
    simp [mapHas, mapGet, mapSet]
  · unfold index_get
    rw [if_neg (by simp [mapHas])]
    simp only [hfuel]
    simp [parseAux, hs0, hr0, hd1, setHas, setAdd, mapSet, mapHas, mapGet]

/-- C7 witness: the two-record file for the name `"a"` with heads
`(1,2)/(3,4)` and `(5,6)/(7,8)`, instantiating the miss-path conclusion. -/
theorem C7_last_writer_wins_amended_witness :
    (index_get "a" 0
        { file := Encoder { key := hash "a", start_chunk := (3, 4),
                            start_matedata := (1, 2) } ++
            Encoder { key := hash "a", start_chunk := (7, 8),
                      start_matedata := (5, 6) },
          file_size := 108, cache := [], offsets_cache := [] }).1
      = some { start_chunk := (1, 2), start_matedata := (3, 4) } :=
  (C7_last_writer_wins_amended "a" 0 0 0 (1, 2) (3, 4) (5, 6) (7, 8)
    (by norm_num) (by norm_num) (by norm_num) (by norm_num)
    (by norm_num) (by norm_num) (by norm_num) (by norm_num)).2.2

/-- C8: duplicate rejection in `set_index` is atomic.  When the cache
already holds the key `hex(sha256(name))` the call returns `false` and the
state — file, file size, cache, and seen-offset set — is returned exactly
as it was; when the key is absent the call returns `true`, appends exactly
one 54-byte record, advances `file_size` by 54, inserts the cache entry at
the old `file_size`, and marks that offset seen. -/
theorem C8_set_index_duplicate_atomic (s : IndexState) (e : IndexEntry)
    (now : Nat) :
    (mapHas s.cache (bufToHex (hash e.name)) = true →
      set_index e now s = (false, s)) ∧
    (mapHas s.cache (bufToHex (hash e.name)) = false →
      (set_index e now s).1 = true ∧
      (set_index e now s).2.file = s.file ++
        Encoder { key := hash e.name, start_chunk := e.start_chunk,
                  start_matedata := e.start_matedata } ∧
      (Encoder { key := hash e.name, start_chunk := e.start_chunk,
                 start_matedata := e.start_matedata }).length = 54 ∧
      (set_index e now s).2.file_size = s.file_size + 54 ∧
      mapGet (set_index e now s).2.cache (bufToHex (hash e.name))
        = some { offset := s.file_size, cycle := now, link := 0,
                 start_chunk := e.start_chunk,
                 start_matedata := e.start_matedata } ∧
      setHas (set_index e now s).2.offsets_cache s.file_size = true) := by
  constructor
  · intro h
    simp [set_index, h]
  · intro h
    refine ⟨?_, ?_, ?_, ?_, ?_, ?_⟩
    · simp [set_index, h]
    · simp [set_index, h]
    · exact Encoder_length _ (hash_length e.name)
    · simp [set_index, h]
    · simp only [set_index, h, if_false]
      exact mapGet_mapSet_self _ _ _
    · simp only [set_index, h, if_false]
      exact setHas_setAdd_self _ _

/-- C8 witness: the duplicate branch on the one-entry state for `"a"` and
the fresh branch on the empty index, at concrete inputs. -/
theorem C8_set_index_duplicate_atomic_witness :
    set_index entryA 9 stateA = (false, stateA) ∧
    (set_index entryA 5 emptyIndex).1 = true ∧
    (set_index entryA 5 emptyIndex).2.file_size = emptyIndex.file_size + 54 :=
  ⟨(C8_set_index_duplicate_atomic stateA entryA 9).1 (by decide),
   ((C8_set_index_duplicate_atomic emptyIndex entryA 5).2 (by decide)).1,
   ((C8_set_index_duplicate_atomic emptyIndex entryA 5).2 (by decide)).2.2.2.1⟩

set_option maxRecDepth 8000 in
/-- C9: `remove` deletes the cache entry keyed by the raw name, not by the
hex digest under which `set`/`get` store entries, so it removes nothing: on
the state holding the entry for `"a"`, `remove("a")` returns `false`,
leaves the state unchanged, and a subsequent `get("a")` still serves the
heads from the cache. -/
theorem C9_remove_keyed_by_name_is_noop :
    index_remove "a" stateA = (false, stateA) ∧
    (index_get "a" 6 (index_remove "a" stateA).2).1
      = some { start_chunk := (3, 4), start_matedata := (1, 2) } := by
  decide

end Physeter
